import Mathlib

/-!
Verification of the muwanx repository's natural-language specification
against its source.  The development shallowly embeds the TypeScript
source files:

* `src/core/scene/tendons.ts`, second document: class
  `PizzaDeliveryEnvManager` (scenario EnvManager state machine);
* `src/viewer/composables/useUrlSync.ts`: `routeItems` and `goToRoute`;
* `src/utils/terrainGeneratorSimple.ts`: `generateBoxTerrain`.

Real-valued JS numbers are modelled as exact rationals (`ℚ`).  The
Euclidean distance of `THREE.Vector3.distanceTo` and the coordinate
convention of `getPosition` (defined in `scene.ts`, whose source is not
available here) are modelled as abstract parameters `dist`/`getPos`;
every theorem about the manager is proved for all such functions, and
concrete instantiations used in counterexamples agree with the genuine
Euclidean distance on the (axis-aligned) points they are evaluated at.
-/

namespace Muwanx

/-- A 3-component vector, modelling `THREE.Vector3`. -/
structure Vec3 where
  x : ℚ
  y : ℚ
  z : ℚ
deriving DecidableEq

/-- The episode phases of `PizzaDeliveryEnvManager.gameState`. -/
inductive GameState where
  | ready
  | playing
  | success
  | failed
deriving DecidableEq

/-- The `pizzaStatus` runtime-parameter value computed in
`updateRuntimeParams`. -/
inductive PizzaStatus where
  | safe
  | warning
  | danger
deriving DecidableEq

/-- The object published on the runtime parameter channel
(`runtime.params.pizzaGame`) and on `pizzaGameRef`.  The source stores
`distanceToGoal`/`elapsedTime` as `toFixed` strings; we keep the exact
numeric values (the formatting is presentational). -/
structure PizzaGameParams where
  state : GameState
  distanceToGoal : ℚ
  elapsedTime : ℚ
  pizzaStatus : PizzaStatus
deriving DecidableEq

/-- The part of the MuJoCo model handle the manager reads (`nbody`). -/
structure MjModelE where
  nbody : ℕ

/-- The part of the MuJoCo data handle the manager reads: the flat
`xpos` array (body `b`'s world position occupies indices `3b..3b+2`). -/
structure MjDataE where
  xpos : ℕ → ℚ

/-- An entry of `runtime.bodies`. -/
structure BodyE where
  name : String
deriving DecidableEq

/-- `PizzaDeliveryOptions` from `tendons.ts` (second document); `none`
models an omitted option. -/
structure PizzaDeliveryOptions where
  goalPosition : Option Vec3 := none
  goalRadius : Option ℚ := none
  maxPizzaDistance : Option ℚ := none
  minPizzaHeight : Option ℚ := none
  minRobotHeight : Option ℚ := none
  pizzaGameRef : Option PizzaGameParams := none

/-- The mutable fields of class `PizzaDeliveryEnvManager`.  The
`params` field models the `runtime.params.pizzaGame` slot of the shared
runtime-parameter channel (`some` once `onRuntimeAttached` created it);
`pizzaGameRef` models the optional Vue ref, holding the last value
written to it. -/
structure PizzaDeliveryEnvManager where
  goalPosition : Vec3
  goalRadius : ℚ
  maxPizzaDistance : ℚ
  minPizzaHeight : ℚ
  failPizzaHeight : ℚ
  minRobotHeight : ℚ
  pizzaGameRef : Option PizzaGameParams
  mjModel : Option MjModelE
  mjData : Option MjDataE
  pizzaBodyId : Option ℕ
  trunkBodyId : Option ℕ
  gameState : GameState
  distanceToGoal : ℚ
  pizzaDistanceFromRobot : ℚ
  pizzaHeight : ℚ
  trunkHeight : ℚ
  startDelay : ℕ
  frameCount : ℕ
  elapsedTime : ℚ
  params : Option PizzaGameParams

/-- The constructor of `PizzaDeliveryEnvManager`, with the source's
default option values. -/
def mkPizzaDeliveryEnvManager (o : PizzaDeliveryOptions) : PizzaDeliveryEnvManager where
  goalPosition := o.goalPosition.getD ⟨5, 0, 0⟩
  goalRadius := o.goalRadius.getD 0.5
  maxPizzaDistance := o.maxPizzaDistance.getD 1.2
  minPizzaHeight := o.minPizzaHeight.getD 0.15
  failPizzaHeight := 0.1
  minRobotHeight := o.minRobotHeight.getD 0.2
  pizzaGameRef := o.pizzaGameRef
  mjModel := none
  mjData := none
  pizzaBodyId := none
  trunkBodyId := none
  gameState := .ready
  distanceToGoal := 0
  pizzaDistanceFromRobot := 0
  pizzaHeight := 0
  trunkHeight := 0
  startDelay := 50
  frameCount := 0
  elapsedTime := 0
  params := none

/-- `onRuntimeAttached`: creates the `runtime.params.pizzaGame` entry. -/
def onRuntimeAttached (m : PizzaDeliveryEnvManager) : PizzaDeliveryEnvManager :=
  { m with params := some ⟨m.gameState, 0, 0, .safe⟩ }

/-- The `pizzaStatus` computation at the top of `updateRuntimeParams`. -/
def pizzaStatusOf (d : ℚ) : PizzaStatus :=
  if d > 0.7 then .danger else if d > 0.5 then .warning else .safe

/-- The `gameData` object built by `updateRuntimeParams` from the
manager's current fields. -/
def publishedOf (m : PizzaDeliveryEnvManager) : PizzaGameParams :=
  ⟨m.gameState, m.distanceToGoal, m.elapsedTime, pizzaStatusOf m.pizzaDistanceFromRobot⟩

/-- `updateRuntimeParams`: writes `gameData` to `pizzaGameRef` (if set)
and to `runtime.params.pizzaGame` (if present). -/
def updateRuntimeParams (m : PizzaDeliveryEnvManager) : PizzaDeliveryEnvManager :=
  { m with pizzaGameRef := m.pizzaGameRef.map fun _ => publishedOf m
           params := m.params.map fun _ => publishedOf m }

/-- The `gameState === 'ready'` branch at the top of
`beforeSimulationStep`: increments `frameCount`, flips to `playing`
once `frameCount >= startDelay`, and publishes runtime params. -/
def readyStep (m : PizzaDeliveryEnvManager) : PizzaDeliveryEnvManager :=
  if m.gameState = .ready then
    updateRuntimeParams
      { m with frameCount := m.frameCount + 1
               gameState := if m.frameCount + 1 ≥ m.startDelay then .playing else .ready }
  else m

/-- The body of `beforeSimulationStep` that runs while
`gameState === 'playing'`: accrues `elapsedTime`, recomputes the
tracked metrics, evaluates the three fail guards (note the literal
thresholds `0.15` and `-0.15`), then the success condition, and
publishes runtime params. -/
def playingStep (dist : Vec3 → Vec3 → ℚ) (getPos : (ℕ → ℚ) → ℕ → Vec3)
    (m : PizzaDeliveryEnvManager) (d : MjDataE) (pizzaId trunkId : ℕ)
    (timestep : ℚ) : PizzaDeliveryEnvManager :=
  let m2 := { m with elapsedTime := m.elapsedTime + timestep }
  let pizzaPos := getPos d.xpos pizzaId
  let trunkPos := getPos d.xpos trunkId
  let pizzaMujocoZ := d.xpos (pizzaId * 3 + 2)
  let trunkMujocoZ := d.xpos (trunkId * 3 + 2)
  let m3 := { m2 with pizzaHeight := pizzaMujocoZ
                      trunkHeight := trunkMujocoZ
                      distanceToGoal := dist trunkPos m2.goalPosition
                      pizzaDistanceFromRobot := dist pizzaPos trunkPos }
  let pizzaRelativeHeight := pizzaMujocoZ - trunkMujocoZ
  let m4 :=
    if m3.pizzaDistanceFromRobot > m3.maxPizzaDistance then { m3 with gameState := .failed }
    else if m3.trunkHeight < 0.15 then { m3 with gameState := .failed }
    else if pizzaRelativeHeight < -0.15 then { m3 with gameState := .failed }
    else m3
  let m5 :=
    if m4.distanceToGoal < m4.goalRadius ∧ m4.pizzaDistanceFromRobot < 0.4 ∧
        pizzaRelativeHeight > 0 then
      { m4 with gameState := .success }
    else m4
  updateRuntimeParams m5

/-- The resolved-bodies case of `beforeSimulationStep` (everything
after the early `return` on unresolved handles). -/
def stepBody (dist : Vec3 → Vec3 → ℚ) (getPos : (ℕ → ℚ) → ℕ → Vec3)
    (m : PizzaDeliveryEnvManager) (d : MjDataE) (pizzaId trunkId : ℕ)
    (timestep : ℚ) : PizzaDeliveryEnvManager :=
  let m1 := readyStep m
  if m1.gameState ≠ .playing then m1
  else playingStep dist getPos m1 d pizzaId trunkId timestep

/-- `beforeSimulationStep({timestep})`: returns immediately when
`mjData` is unset or either body id is unresolved. -/
def beforeSimulationStep (dist : Vec3 → Vec3 → ℚ) (getPos : (ℕ → ℚ) → ℕ → Vec3)
    (m : PizzaDeliveryEnvManager) (timestep : ℚ) : PizzaDeliveryEnvManager :=
  match m.mjData, m.pizzaBodyId, m.trunkBodyId with
  | some d, some pizzaId, some trunkId => stepBody dist getPos m d pizzaId trunkId timestep
  | _, _, _ => m

/-- `startGame`: back to `ready`, counters cleared, params published. -/
def startGame (m : PizzaDeliveryEnvManager) : PizzaDeliveryEnvManager :=
  updateRuntimeParams { m with gameState := .ready, frameCount := 0, elapsedTime := 0 }

/-- `reset`: identical body to `startGame` in the source. -/
def reset (m : PizzaDeliveryEnvManager) : PizzaDeliveryEnvManager :=
  updateRuntimeParams { m with gameState := .ready, frameCount := 0, elapsedTime := 0 }

/-- The body-resolution loop of `onSceneLoaded` for one name: iterates
`b` over `0..<nbody`, skipping missing `runtime.bodies` entries; a later
match overwrites an earlier one. -/
def resolveBody (bodies : ℕ → Option BodyE) (nbody : ℕ) (nm : String) : Option ℕ :=
  (List.range nbody).foldl
    (fun acc b =>
      match bodies b with
      | none => acc
      | some body => if body.name = nm then some b else acc)
    none

/-- `onSceneLoaded({mjModel, mjData})`: stores the handles, re-resolves
the `pizza_box` and `trunk` body ids from `runtime.bodies` (logging
only, never throwing, when a name is absent), then calls `startGame`. -/
def onSceneLoaded (m : PizzaDeliveryEnvManager) (model : MjModelE) (d : MjDataE)
    (bodies : ℕ → Option BodyE) : PizzaDeliveryEnvManager :=
  startGame
    { m with mjModel := some model
             mjData := some d
             pizzaBodyId := resolveBody bodies model.nbody "pizza_box"
             trunkBodyId := resolveBody bodies model.nbody "trunk" }

/-- The raw MuJoCo z-coordinate read `xpos[b * 3 + 2]`. -/
def readZ (d : MjDataE) (b : ℕ) : ℚ :=
  d.xpos (b * 3 + 2)

/-- The disjunction of the three fail-guard conditions evaluated by
`beforeSimulationStep` in the `playing` state, exactly as the source
compares them: configured `maxPizzaDistance` for the distance guard,
literal `0.15` and `-0.15` for the two height guards. -/
def failCond (dist : Vec3 → Vec3 → ℚ) (getPos : (ℕ → ℚ) → ℕ → Vec3)
    (maxPizzaDistance : ℚ) (d : MjDataE) (pizzaId trunkId : ℕ) : Prop :=
  dist (getPos d.xpos pizzaId) (getPos d.xpos trunkId) > maxPizzaDistance ∨
    readZ d trunkId < 0.15 ∨
    readZ d pizzaId - readZ d trunkId < -0.15

/-- The success condition evaluated by `beforeSimulationStep` in the
`playing` state. -/
def succCond (dist : Vec3 → Vec3 → ℚ) (getPos : (ℕ → ℚ) → ℕ → Vec3)
    (goalPosition : Vec3) (goalRadius : ℚ) (d : MjDataE) (pizzaId trunkId : ℕ) : Prop :=
  dist (getPos d.xpos trunkId) goalPosition < goalRadius ∧
    dist (getPos d.xpos pizzaId) (getPos d.xpos trunkId) < 0.4 ∧
    readZ d pizzaId - readZ d trunkId > 0

instance instDecidableFailCond (dist : Vec3 → Vec3 → ℚ) (getPos : (ℕ → ℚ) → ℕ → Vec3)
    (mx : ℚ) (d : MjDataE) (p tr : ℕ) : Decidable (failCond dist getPos mx d p tr) := by
  unfold failCond; infer_instance

instance instDecidableSuccCond (dist : Vec3 → Vec3 → ℚ) (getPos : (ℕ → ℚ) → ℕ → Vec3)
    (g : Vec3) (r : ℚ) (d : MjDataE) (p tr : ℕ) :
    Decidable (succCond dist getPos g r d p tr) := by
  unfold succCond; infer_instance

/-- A concrete distance function used for closed-instance theorems: it
coincides with the Euclidean `THREE.Vector3.distanceTo` whenever the two
points agree in their first two components, which holds for every pair
it is evaluated at below. -/
def distZAxis (a b : Vec3) : ℚ :=
  |a.z - b.z|

/-- Modelled from the spec: `getPosition` lives in `core/scene/scene.ts`,
which is not under `src/`; per the spec the physics handle exposes
per-body world positions as a flat array.  Any fixed axis convention is
an isometry and yields the same distances; we use the identity
convention, reading components `3b`, `3b+1`, `3b+2`. -/
def getPosId (xpos : ℕ → ℚ) (b : ℕ) : Vec3 :=
  ⟨xpos (3 * b), xpos (3 * b + 1), xpos (3 * b + 2)⟩

/-! ### Helper lemmas about the step function -/

@[simp] lemma updateRuntimeParams_gameState (m : PizzaDeliveryEnvManager) :
    (updateRuntimeParams m).gameState = m.gameState := rfl

@[simp] lemma updateRuntimeParams_frameCount (m : PizzaDeliveryEnvManager) :
    (updateRuntimeParams m).frameCount = m.frameCount := rfl

@[simp] lemma updateRuntimeParams_elapsedTime (m : PizzaDeliveryEnvManager) :
    (updateRuntimeParams m).elapsedTime = m.elapsedTime := rfl

@[simp] lemma updateRuntimeParams_mjData (m : PizzaDeliveryEnvManager) :
    (updateRuntimeParams m).mjData = m.mjData := rfl

@[simp] lemma updateRuntimeParams_pizzaBodyId (m : PizzaDeliveryEnvManager) :
    (updateRuntimeParams m).pizzaBodyId = m.pizzaBodyId := rfl

@[simp] lemma updateRuntimeParams_trunkBodyId (m : PizzaDeliveryEnvManager) :
    (updateRuntimeParams m).trunkBodyId = m.trunkBodyId := rfl

@[simp] lemma updateRuntimeParams_startDelay (m : PizzaDeliveryEnvManager) :
    (updateRuntimeParams m).startDelay = m.startDelay := rfl

@[simp] lemma updateRuntimeParams_goalPosition (m : PizzaDeliveryEnvManager) :
    (updateRuntimeParams m).goalPosition = m.goalPosition := rfl

@[simp] lemma updateRuntimeParams_goalRadius (m : PizzaDeliveryEnvManager) :
    (updateRuntimeParams m).goalRadius = m.goalRadius := rfl

@[simp] lemma updateRuntimeParams_maxPizzaDistance (m : PizzaDeliveryEnvManager) :
    (updateRuntimeParams m).maxPizzaDistance = m.maxPizzaDistance := rfl

/-- Reducing `beforeSimulationStep` when all handles are resolved. -/
lemma beforeSimulationStep_resolved (dist : Vec3 → Vec3 → ℚ) (getPos : (ℕ → ℚ) → ℕ → Vec3)
    {m : PizzaDeliveryEnvManager} {d : MjDataE} {p tr : ℕ} (t : ℚ)
    (hd : m.mjData = some d) (hp : m.pizzaBodyId = some p) (ht : m.trunkBodyId = some tr) :
    beforeSimulationStep dist getPos m t = stepBody dist getPos m d p tr t := by
  unfold beforeSimulationStep
  rw [hd, hp, ht]

/-- `beforeSimulationStep` is the identity when a handle is unresolved. -/
lemma beforeSimulationStep_unresolved (dist : Vec3 → Vec3 → ℚ) (getPos : (ℕ → ℚ) → ℕ → Vec3)
    {m : PizzaDeliveryEnvManager} (t : ℚ)
    (h : m.mjData = none ∨ m.pizzaBodyId = none ∨ m.trunkBodyId = none) :
    beforeSimulationStep dist getPos m t = m := by
  unfold beforeSimulationStep
  rcases hd : m.mjData with _ | d <;> rcases hp : m.pizzaBodyId with _ | p <;>
    rcases ht : m.trunkBodyId with _ | tr <;> simp_all

/-- `beforeSimulationStep` is the identity in a terminal state. -/
lemma beforeSimulationStep_terminal (dist : Vec3 → Vec3 → ℚ) (getPos : (ℕ → ℚ) → ℕ → Vec3)
    {m : PizzaDeliveryEnvManager} (t : ℚ)
    (h : m.gameState = .failed ∨ m.gameState = .success) :
    beforeSimulationStep dist getPos m t = m := by
  rcases hd : m.mjData with _ | d
  · exact beforeSimulationStep_unresolved dist getPos t (Or.inl hd)
  rcases hp : m.pizzaBodyId with _ | p
  · exact beforeSimulationStep_unresolved dist getPos t (Or.inr (Or.inl hp))
  rcases ht : m.trunkBodyId with _ | tr
  · exact beforeSimulationStep_unresolved dist getPos t (Or.inr (Or.inr ht))
  rw [beforeSimulationStep_resolved dist getPos t hd hp ht]
  unfold stepBody readyStep
  rcases h with h | h <;> simp [h]

set_option maxHeartbeats 1000000 in
/-- The end-of-tick `gameState` produced by the `playing` body: the
success check runs after the fail guards and overrides them. -/
lemma playingStep_gameState (dist : Vec3 → Vec3 → ℚ) (getPos : (ℕ → ℚ) → ℕ → Vec3)
    (m : PizzaDeliveryEnvManager) (d : MjDataE) (p tr : ℕ) (t : ℚ) :
    (playingStep dist getPos m d p tr t).gameState =
      if succCond dist getPos m.goalPosition m.goalRadius d p tr then .success
      else if failCond dist getPos m.maxPizzaDistance d p tr then .failed
      else m.gameState := by
  unfold playingStep succCond failCond readZ
  simp only [updateRuntimeParams_gameState]
  split_ifs <;> try simp_all
  all_goals (rcases ‹_ ∨ _ ∨ _› with hh | hh | hh <;> linarith)

/-- The end-of-tick `gameState` of a full step taken in the `playing`
state. -/
lemma beforeSimulationStep_playing_gameState (dist : Vec3 → Vec3 → ℚ)
    (getPos : (ℕ → ℚ) → ℕ → Vec3) {m : PizzaDeliveryEnvManager} {d : MjDataE} {p tr : ℕ}
    (t : ℚ) (hd : m.mjData = some d) (hp : m.pizzaBodyId = some p)
    (ht : m.trunkBodyId = some tr) (hgs : m.gameState = .playing) :
    (beforeSimulationStep dist getPos m t).gameState =
      if succCond dist getPos m.goalPosition m.goalRadius d p tr then .success
      else if failCond dist getPos m.maxPizzaDistance d p tr then .failed
      else .playing := by
  rw [beforeSimulationStep_resolved dist getPos t hd hp ht]
  unfold stepBody readyStep
  simp [hgs, playingStep_gameState]

/-! ### Concrete manager instances for closed-form theorems -/

/-- World positions (flat `xpos` layout, bodies 0,1,2): pizza (body 1)
at `(0,0,0.2)`, trunk (body 2) at `(0,0,0.1)`.  All points lie on the
z-axis, so `distZAxis`/`getPosId` compute the genuine Euclidean
distances. -/
def dataLow : MjDataE :=
  ⟨fun n => if n = 5 then 1/5 else if n = 8 then 1/10 else 0⟩

/-- A mid-episode manager: `playing`, bodies resolved, goal far away at
`(0,0,5)` (all other options at their defaults). -/
def mW1 : PizzaDeliveryEnvManager :=
  { mkPizzaDeliveryEnvManager { goalPosition := some ⟨0, 0, 5⟩ } with
      gameState := .playing
      mjData := some dataLow
      pizzaBodyId := some 1
      trunkBodyId := some 2 }

/-- Like `mW1` but the goal is at the trunk's position `(0,0,0.1)`, so
the success condition holds on the same tick as the trunk-height fail
guard. -/
def mC1 : PizzaDeliveryEnvManager :=
  { mkPizzaDeliveryEnvManager { goalPosition := some ⟨0, 0, 1/10⟩ } with
      gameState := .playing
      mjData := some dataLow
      pizzaBodyId := some 1
      trunkBodyId := some 2 }

/-- World positions: pizza and trunk both at `(0,0,0.3)`. -/
def dataMid : MjDataE :=
  ⟨fun n => if n = 5 then 3/10 else if n = 8 then 3/10 else 0⟩

/-- A `playing` manager constructed with `minRobotHeight` configured to
`0.5`; the trunk sits at height `0.3`, below that configured value but
above the built-in `0.15`. -/
def mC4 : PizzaDeliveryEnvManager :=
  { mkPizzaDeliveryEnvManager { goalPosition := some ⟨0, 0, 5⟩, minRobotHeight := some (1/2) } with
      gameState := .playing
      mjData := some dataMid
      pizzaBodyId := some 1
      trunkBodyId := some 2 }

/-! ### Claim C3 -/

/-- C3: once the manager's state is `failed` or `success`, any number of
further `beforeSimulationStep` calls leaves the manager (in particular
its state) unchanged, and an explicit `reset()` transitions the state
back to `ready`. -/
theorem terminal_states_locked (dist : Vec3 → Vec3 → ℚ) (getPos : (ℕ → ℚ) → ℕ → Vec3)
    (m : PizzaDeliveryEnvManager)
    (h : m.gameState = .failed ∨ m.gameState = .success) :
    (∀ (t : ℚ) (n : ℕ), (fun s => beforeSimulationStep dist getPos s t)^[n] m = m) ∧
    (reset m).gameState = .ready := by
  refine ⟨fun t n => ?_, rfl⟩
  induction n with
  | zero => rfl
  | succ k ih =>
      rw [Function.iterate_succ_apply', ih]
      exact beforeSimulationStep_terminal dist getPos t h

/-- A terminal (`failed`) manager used to witness C3. -/
def mTermW : PizzaDeliveryEnvManager :=
  { mkPizzaDeliveryEnvManager {} with gameState := .failed }

/-- Witness for C3 at a concrete failed manager. -/
theorem terminal_states_locked_witness :
    beforeSimulationStep distZAxis getPosId mTermW 1 = mTermW ∧
    (reset mTermW).gameState = .ready := by
  have h := terminal_states_locked distZAxis getPosId mTermW (Or.inl rfl)
  exact ⟨by simpa using h.1 1 1, h.2⟩

/-! ### Claim C7 -/

/-- C7: `reset()` restores the post-bind initial episode condition —
state `ready`, elapsed time `0`, tick counter `0` — while leaving the
resolved bindings (`mjModel`/`mjData` handles and both body-id lookups)
unchanged. -/
theorem reset_restores_initial_episode (m : PizzaDeliveryEnvManager) :
    (reset m).gameState = .ready ∧ (reset m).elapsedTime = 0 ∧ (reset m).frameCount = 0 ∧
    (reset m).mjModel = m.mjModel ∧ (reset m).mjData = m.mjData ∧
    (reset m).pizzaBodyId = m.pizzaBodyId ∧ (reset m).trunkBodyId = m.trunkBodyId :=
  ⟨rfl, rfl, rfl, rfl, rfl, rfl, rfl⟩

/-! ### Claim C1 -/

/-- C1 counterexample: on this tick the trunk-height fail threshold is
crossed (trunk z = 0.1 < 0.15), yet the end-of-tick state is `success`,
not `failed`: the success check runs after the fail guards and
overwrites the state when it holds on the same tick. -/
theorem fail_guard_overridden_by_success_cex :
    readZ dataLow 2 < 0.15 ∧
    mC1.gameState = .playing ∧
    (beforeSimulationStep distZAxis getPosId mC1 1).gameState = .success := by
  have hs : succCond distZAxis getPosId mC1.goalPosition mC1.goalRadius dataLow 1 2 := by
    norm_num [abs_lt, le_abs, succCond, distZAxis, getPosId, dataLow, readZ, mC1, mkPizzaDeliveryEnvManager]
  refine ⟨by norm_num [readZ, dataLow], rfl, ?_⟩
  rw [beforeSimulationStep_playing_gameState distZAxis getPosId 1 rfl rfl rfl rfl, if_pos hs]

/-- C1 (amended): from `playing`, if a fail-guard threshold is crossed
on tick N and the success condition does not also hold on that tick,
the state at the end of tick N is `failed`, and any later call on a
`failed` manager is the identity, so the state stays `failed` until
`reset()`.  (The amendment: when the success condition holds
simultaneously, the success check — evaluated after the fail guards —
overwrites the state to `success` instead.) -/
theorem fail_guard_enters_failed_amended (dist : Vec3 → Vec3 → ℚ)
    (getPos : (ℕ → ℚ) → ℕ → Vec3) (m : PizzaDeliveryEnvManager) (d : MjDataE)
    (p tr : ℕ) (t : ℚ)
    (hd : m.mjData = some d) (hp : m.pizzaBodyId = some p) (ht : m.trunkBodyId = some tr)
    (hgs : m.gameState = .playing)
    (hfail : failCond dist getPos m.maxPizzaDistance d p tr)
    (hnsucc : ¬ succCond dist getPos m.goalPosition m.goalRadius d p tr) :
    (beforeSimulationStep dist getPos m t).gameState = .failed ∧
    ∀ (m2 : PizzaDeliveryEnvManager) (t2 : ℚ),
      m2.gameState = .failed → beforeSimulationStep dist getPos m2 t2 = m2 := by
  refine ⟨?_, fun m2 t2 h2 => beforeSimulationStep_terminal dist getPos t2 (Or.inl h2)⟩
  rw [beforeSimulationStep_playing_gameState dist getPos t hd hp ht hgs,
    if_neg hnsucc, if_pos hfail]

/-- Witness for the amended C1: with the goal far away the success
condition is false, the trunk-height guard is crossed, and the tick
ends `failed`. -/
theorem fail_guard_enters_failed_amended_witness :
    (beforeSimulationStep distZAxis getPosId mW1 1).gameState = .failed :=
  (fail_guard_enters_failed_amended distZAxis getPosId mW1 dataLow 1 2 1
    rfl rfl rfl rfl
    (by norm_num [abs_lt, le_abs, failCond, distZAxis, getPosId, dataLow, readZ, mW1, mkPizzaDeliveryEnvManager])
    (by norm_num [abs_lt, le_abs, succCond, distZAxis, getPosId, dataLow, readZ, mW1, mkPizzaDeliveryEnvManager])).1

/-! ### Claim C4 -/

/-- C4 counterexample: `minRobotHeight` is configured to `0.5` at
construction and the trunk height on this tick is `0.3 < 0.5`, so per
the claim the robot-height fail guard fires; the code compares against
the built-in constant `0.15` instead and leaves the state `playing`. -/
theorem min_robot_height_ignored_cex :
    mC4.minRobotHeight = 1/2 ∧
    readZ dataMid 2 = 3/10 ∧
    readZ dataMid 2 < mC4.minRobotHeight ∧
    (beforeSimulationStep distZAxis getPosId mC4 1).gameState = .playing := by
  have hns : ¬ succCond distZAxis getPosId mC4.goalPosition mC4.goalRadius dataMid 1 2 := by
    norm_num [abs_lt, le_abs, succCond, distZAxis, getPosId, dataMid, readZ, mC4, mkPizzaDeliveryEnvManager]
  have hnf : ¬ failCond distZAxis getPosId mC4.maxPizzaDistance dataMid 1 2 := by
    norm_num [abs_lt, le_abs, failCond, distZAxis, getPosId, dataMid, readZ, mC4, mkPizzaDeliveryEnvManager]
  refine ⟨by norm_num [mC4, mkPizzaDeliveryEnvManager],
    by norm_num [readZ, dataMid],
    by norm_num [readZ, dataMid, mC4, mkPizzaDeliveryEnvManager], ?_⟩
  rw [beforeSimulationStep_playing_gameState distZAxis getPosId 1 rfl rfl rfl rfl,
    if_neg hns, if_neg hnf]

/-- C4 (amended): in the `playing` state (success condition not
holding), the tick ends `failed` exactly when the pizza-robot distance
exceeds the configured `maxPizzaDistance`, or the trunk height is below
the built-in constant `0.15`, or the pizza's height relative to the
trunk is below the built-in constant `-0.15`.  The configured
`minRobotHeight` and `minPizzaHeight` options are stored by the
constructor but never read by the guards (the statement quantifies over
all managers, hence over all values of those options). -/
theorem guard_thresholds_amended (dist : Vec3 → Vec3 → ℚ)
    (getPos : (ℕ → ℚ) → ℕ → Vec3) (m : PizzaDeliveryEnvManager) (d : MjDataE)
    (p tr : ℕ) (t : ℚ)
    (hd : m.mjData = some d) (hp : m.pizzaBodyId = some p) (ht : m.trunkBodyId = some tr)
    (hgs : m.gameState = .playing)
    (hnsucc : ¬ succCond dist getPos m.goalPosition m.goalRadius d p tr) :
    (beforeSimulationStep dist getPos m t).gameState = .failed ↔
      (dist (getPos d.xpos p) (getPos d.xpos tr) > m.maxPizzaDistance ∨
       readZ d tr < 0.15 ∨ readZ d p - readZ d tr < -0.15) := by
  rw [beforeSimulationStep_playing_gameState dist getPos t hd hp ht hgs, if_neg hnsucc]
  by_cases hf : failCond dist getPos m.maxPizzaDistance d p tr
  · rw [if_pos hf]
    exact iff_of_true rfl hf
  · rw [if_neg hf]
    exact iff_of_false (by decide) hf

/-- Witness for the amended C4 at the concrete `mC4` instance. -/
theorem guard_thresholds_amended_witness :
    (beforeSimulationStep distZAxis getPosId mC4 1).gameState = .failed ↔
      (distZAxis (getPosId dataMid.xpos 1) (getPosId dataMid.xpos 2) > mC4.maxPizzaDistance ∨
       readZ dataMid 2 < 0.15 ∨ readZ dataMid 1 - readZ dataMid 2 < -0.15) :=
  guard_thresholds_amended distZAxis getPosId mC4 dataMid 1 2 1
    rfl rfl rfl rfl
    (by norm_num [abs_lt, le_abs, succCond, distZAxis, getPosId, dataMid, readZ, mC4, mkPizzaDeliveryEnvManager])

/-! ### Claim C2 -/

@[simp] lemma updateRuntimeParams_params (m : PizzaDeliveryEnvManager) :
    (updateRuntimeParams m).params = m.params.map fun _ => publishedOf m := rfl

@[simp] lemma publishedOf_updateRuntimeParams (m : PizzaDeliveryEnvManager) :
    publishedOf (updateRuntimeParams m) = publishedOf m := rfl

/-- `playingStep` always ends in `updateRuntimeParams` of a manager
whose `params` slot is untouched. -/
lemma playingStep_eq_updateRuntimeParams (dist : Vec3 → Vec3 → ℚ)
    (getPos : (ℕ → ℚ) → ℕ → Vec3) (m : PizzaDeliveryEnvManager) (d : MjDataE)
    (p tr : ℕ) (t : ℚ) :
    ∃ m5, playingStep dist getPos m d p tr t = updateRuntimeParams m5 ∧ m5.params = m.params := by
  unfold playingStep
  refine ⟨_, rfl, ?_⟩
  split_ifs <;> rfl

/-- Whenever the state entering the tick is `ready` or `playing` (and
the handles are resolved), the step ends in `updateRuntimeParams` of a
manager whose `params` slot has the same presence as the input's. -/
lemma beforeSimulationStep_eq_updateRuntimeParams (dist : Vec3 → Vec3 → ℚ)
    (getPos : (ℕ → ℚ) → ℕ → Vec3) {m : PizzaDeliveryEnvManager} {d : MjDataE} {p tr : ℕ}
    (t : ℚ) (hd : m.mjData = some d) (hp : m.pizzaBodyId = some p)
    (ht : m.trunkBodyId = some tr) (h : m.gameState = .ready ∨ m.gameState = .playing) :
    ∃ mf, beforeSimulationStep dist getPos m t = updateRuntimeParams mf ∧
      mf.params.isSome = m.params.isSome := by
  rw [beforeSimulationStep_resolved dist getPos t hd hp ht]
  unfold stepBody readyStep
  rcases h with h | h
  · rw [if_pos h]
    by_cases hge : m.frameCount + 1 ≥ m.startDelay
    · rw [if_neg (by simp [hge])]
      obtain ⟨m5, he5, hp5⟩ := playingStep_eq_updateRuntimeParams dist getPos
        (updateRuntimeParams
          { m with frameCount := m.frameCount + 1
                   gameState := if m.frameCount + 1 ≥ m.startDelay then .playing else .ready })
        d p tr t
      refine ⟨m5, he5, ?_⟩
      rw [hp5]
      simp
    · rw [if_pos (by simp [hge])]
      exact ⟨_, rfl, rfl⟩
  · rw [if_neg (by simp [h])]
    rw [if_neg (by simp [h])]
    exact playingStep_eq_updateRuntimeParams dist getPos m d p tr t |>.imp
      fun m5 ⟨he, hpa⟩ => ⟨he, by rw [hpa]⟩

lemma option_map_const_congr {α β : Type} {a b : Option α} (c : β)
    (h : a.isSome = b.isSome) : a.map (fun _ => c) = b.map (fun _ => c) := by
  cases a <;> cases b <;> simp_all

/-- C2 (amended): on a tick taken in state `ready` or `playing` with
the body handles resolved, `beforeSimulationStep` republishes the
runtime-parameter channel with the manager's end-of-tick metrics
(state, distance-to-goal, elapsed time, pizza status); on a tick taken
in a terminal state (`success` or `failed`) the call returns without
touching the channel — the published metrics stay frozen. -/
theorem runtime_params_updated_amended (dist : Vec3 → Vec3 → ℚ)
    (getPos : (ℕ → ℚ) → ℕ → Vec3) (m : PizzaDeliveryEnvManager) (d : MjDataE)
    (p tr : ℕ) (t : ℚ)
    (hd : m.mjData = some d) (hp : m.pizzaBodyId = some p) (ht : m.trunkBodyId = some tr) :
    ((m.gameState = .ready ∨ m.gameState = .playing) →
      (beforeSimulationStep dist getPos m t).params =
        m.params.map fun _ => publishedOf (beforeSimulationStep dist getPos m t)) ∧
    ((m.gameState = .success ∨ m.gameState = .failed) →
      beforeSimulationStep dist getPos m t = m) := by
  constructor
  · intro h
    obtain ⟨mf, he, hiso⟩ :=
      beforeSimulationStep_eq_updateRuntimeParams dist getPos t hd hp ht h
    rw [he, updateRuntimeParams_params, publishedOf_updateRuntimeParams]
    exact option_map_const_congr _ hiso
  · intro h
    exact beforeSimulationStep_terminal dist getPos t h.symm

/-- A terminal manager whose published channel is stale: the channel
still carries elapsed time `0` while the manager's elapsed time is `5`. -/
def mC2 : PizzaDeliveryEnvManager :=
  { mkPizzaDeliveryEnvManager {} with
      gameState := .failed
      mjData := some dataLow
      pizzaBodyId := some 1
      trunkBodyId := some 2
      elapsedTime := 5
      params := some ⟨.failed, 0, 0, .safe⟩ }

/-- C2 counterexample: a `beforeSimulationStep` call in the terminal
state `failed` (with handles resolved) returns the manager unchanged;
in particular the published elapsed-time metric (0) is not updated to
the manager's elapsed time (5), contradicting the claim that every call
updates the published metrics in every state. -/
theorem terminal_tick_skips_params_cex :
    beforeSimulationStep distZAxis getPosId mC2 1 = mC2 ∧
    mC2.params = some ⟨.failed, 0, 0, .safe⟩ ∧
    mC2.elapsedTime = 5 ∧ (5 : ℚ) ≠ 0 := by
  exact ⟨beforeSimulationStep_terminal distZAxis getPosId 1 (Or.inl rfl), rfl, rfl, by norm_num⟩

/-- A freshly loaded manager in state `ready` with resolved handles. -/
def mW1r : PizzaDeliveryEnvManager :=
  { mkPizzaDeliveryEnvManager {} with
      mjData := some dataLow
      pizzaBodyId := some 1
      trunkBodyId := some 2 }

/-- Witness for the amended C2: a `ready`-state tick republishes the
channel with the end-of-tick metrics. -/
theorem runtime_params_updated_amended_witness :
    (beforeSimulationStep distZAxis getPosId (onRuntimeAttached mW1r) 1).params =
      (onRuntimeAttached mW1r).params.map
        fun _ => publishedOf (beforeSimulationStep distZAxis getPosId (onRuntimeAttached mW1r) 1) :=
  (runtime_params_updated_amended distZAxis getPosId (onRuntimeAttached mW1r) dataLow 1 2 1
    rfl rfl rfl).1 (Or.inl rfl)

/-! ### Claim C5 -/

/-- Fields never written by `beforeSimulationStep`. -/
lemma playingStep_preserved (dist : Vec3 → Vec3 → ℚ) (getPos : (ℕ → ℚ) → ℕ → Vec3)
    (m : PizzaDeliveryEnvManager) (d : MjDataE) (p tr : ℕ) (t : ℚ) :
    (playingStep dist getPos m d p tr t).pizzaBodyId = m.pizzaBodyId ∧
    (playingStep dist getPos m d p tr t).trunkBodyId = m.trunkBodyId ∧
    (playingStep dist getPos m d p tr t).startDelay = m.startDelay ∧
    (playingStep dist getPos m d p tr t).maxPizzaDistance = m.maxPizzaDistance ∧
    (playingStep dist getPos m d p tr t).goalPosition = m.goalPosition ∧
    (playingStep dist getPos m d p tr t).goalRadius = m.goalRadius ∧
    (playingStep dist getPos m d p tr t).mjData = m.mjData := by
  simp only [playingStep, updateRuntimeParams]
  split_ifs <;> simp

/-- Fields never written by `readyStep`. -/
lemma readyStep_preserved (m : PizzaDeliveryEnvManager) :
    (readyStep m).pizzaBodyId = m.pizzaBodyId ∧
    (readyStep m).trunkBodyId = m.trunkBodyId ∧
    (readyStep m).startDelay = m.startDelay ∧
    (readyStep m).maxPizzaDistance = m.maxPizzaDistance ∧
    (readyStep m).goalPosition = m.goalPosition ∧
    (readyStep m).goalRadius = m.goalRadius ∧
    (readyStep m).mjData = m.mjData := by
  simp only [readyStep, updateRuntimeParams]
  split_ifs <;> simp

/-- The step never writes the bindings or the guard configuration. -/
lemma beforeSimulationStep_preserved (dist : Vec3 → Vec3 → ℚ) (getPos : (ℕ → ℚ) → ℕ → Vec3)
    (m : PizzaDeliveryEnvManager) (t : ℚ) :
    (beforeSimulationStep dist getPos m t).pizzaBodyId = m.pizzaBodyId ∧
    (beforeSimulationStep dist getPos m t).trunkBodyId = m.trunkBodyId ∧
    (beforeSimulationStep dist getPos m t).startDelay = m.startDelay ∧
    (beforeSimulationStep dist getPos m t).maxPizzaDistance = m.maxPizzaDistance ∧
    (beforeSimulationStep dist getPos m t).goalPosition = m.goalPosition ∧
    (beforeSimulationStep dist getPos m t).goalRadius = m.goalRadius ∧
    (beforeSimulationStep dist getPos m t).mjData = m.mjData := by
  rcases hd : m.mjData with _ | d
  · rw [beforeSimulationStep_unresolved dist getPos t (Or.inl hd)]
    simp_all
  rcases hpz : m.pizzaBodyId with _ | p
  · rw [beforeSimulationStep_unresolved dist getPos t (Or.inr (Or.inl hpz))]
    simp_all
  rcases htr : m.trunkBodyId with _ | tr
  · rw [beforeSimulationStep_unresolved dist getPos t (Or.inr (Or.inr htr))]
    simp_all
  rw [beforeSimulationStep_resolved dist getPos t hd hpz htr]
  simp only [stepBody]
  obtain ⟨r1, r2, r3, r4, r5, r6, r7⟩ := readyStep_preserved m
  split_ifs
  · exact ⟨r1.trans hpz, r2.trans htr, r3, r4, r5, r6, r7.trans hd⟩
  · obtain ⟨q1, q2, q3, q4, q5, q6, q7⟩ :=
      playingStep_preserved dist getPos (readyStep m) d p tr t
    exact ⟨(q1.trans r1).trans hpz, (q2.trans r2).trans htr, q3.trans r3, q4.trans r4,
      q5.trans r5, q6.trans r6, (q7.trans r7).trans hd⟩

/-- A warm-up tick: in state `ready` with the next frame count still
below `startDelay`, the step stays `ready` and increments the frame
counter. -/
lemma beforeSimulationStep_ready_stays (dist : Vec3 → Vec3 → ℚ)
    (getPos : (ℕ → ℚ) → ℕ → Vec3) {m : PizzaDeliveryEnvManager} {d : MjDataE} {p tr : ℕ}
    (t : ℚ) (hd : m.mjData = some d) (hp : m.pizzaBodyId = some p)
    (ht : m.trunkBodyId = some tr) (h : m.gameState = .ready)
    (hlt : m.frameCount + 1 < m.startDelay) :
    (beforeSimulationStep dist getPos m t).gameState = .ready ∧
    (beforeSimulationStep dist getPos m t).frameCount = m.frameCount + 1 := by
  rw [beforeSimulationStep_resolved dist getPos t hd hp ht]
  unfold stepBody readyStep
  rw [if_pos h]
  have hnge : ¬ (m.frameCount + 1 ≥ m.startDelay) := by omega
  rw [if_pos (by simp [hnge])]
  exact ⟨by simp [hnge], by simp⟩

/-- The transition tick: in state `ready` with `frameCount + 1`
reaching `startDelay`, and with neither the fail guards nor the success
condition holding on the current data, the step ends in `playing`. -/
lemma beforeSimulationStep_ready_transitions (dist : Vec3 → Vec3 → ℚ)
    (getPos : (ℕ → ℚ) → ℕ → Vec3) {m : PizzaDeliveryEnvManager} {d : MjDataE} {p tr : ℕ}
    (t : ℚ) (hd : m.mjData = some d) (hp : m.pizzaBodyId = some p)
    (ht : m.trunkBodyId = some tr) (h : m.gameState = .ready)
    (hge : m.startDelay ≤ m.frameCount + 1)
    (hnf : ¬ failCond dist getPos m.maxPizzaDistance d p tr)
    (hns : ¬ succCond dist getPos m.goalPosition m.goalRadius d p tr) :
    (beforeSimulationStep dist getPos m t).gameState = .playing := by
  rw [beforeSimulationStep_resolved dist getPos t hd hp ht]
  unfold stepBody readyStep
  rw [if_pos h]
  rw [if_neg (by simp [hge])]
  rw [playingStep_gameState]
  simp [hge, hnf, hns]

/-- A driver harness calling `beforeSimulationStep` once per tick while
the physics engine rewrites the contents of the (in-place mutated)
`xpos` buffer between ticks: `ds n` is the buffer contents seen by the
`n`-th call, `ts n` its timestep. -/
def tickSeq (dist : Vec3 → Vec3 → ℚ) (getPos : (ℕ → ℚ) → ℕ → Vec3)
    (ds : ℕ → MjDataE) (ts : ℕ → ℚ) (m : PizzaDeliveryEnvManager) :
    ℕ → PizzaDeliveryEnvManager
  | 0 => m
  | n + 1 =>
      beforeSimulationStep dist getPos
        { tickSeq dist getPos ds ts m n with
            mjData := (tickSeq dist getPos ds ts m n).mjData.map fun _ => ds n } (ts n)

/-- C5: starting from `ready` with bodies resolved and frame counter 0,
the state is still `ready` after every tick before the `startDelay`-th,
and exactly at the `startDelay`-th `beforeSimulationStep` call — with
no guard condition firing on that tick — the state becomes `playing`,
with no external trigger. -/
theorem warmup_transitions_to_playing (dist : Vec3 → Vec3 → ℚ)
    (getPos : (ℕ → ℚ) → ℕ → Vec3) (ds : ℕ → MjDataE) (ts : ℕ → ℚ)
    (m : PizzaDeliveryEnvManager) (p tr : ℕ)
    (hd : m.mjData.isSome = true) (hp : m.pizzaBodyId = some p)
    (ht : m.trunkBodyId = some tr) (hgs : m.gameState = .ready)
    (hfc : m.frameCount = 0) (hsd : 1 ≤ m.startDelay)
    (hnf : ¬ failCond dist getPos m.maxPizzaDistance (ds (m.startDelay - 1)) p tr)
    (hns : ¬ succCond dist getPos m.goalPosition m.goalRadius (ds (m.startDelay - 1)) p tr) :
    (∀ k, k < m.startDelay → (tickSeq dist getPos ds ts m k).gameState = .ready) ∧
    (tickSeq dist getPos ds ts m m.startDelay).gameState = .playing := by
  have inv : ∀ k, k < m.startDelay →
      (tickSeq dist getPos ds ts m k).gameState = .ready ∧
      (tickSeq dist getPos ds ts m k).frameCount = k ∧
      (tickSeq dist getPos ds ts m k).pizzaBodyId = some p ∧
      (tickSeq dist getPos ds ts m k).trunkBodyId = some tr ∧
      (tickSeq dist getPos ds ts m k).startDelay = m.startDelay ∧
      (tickSeq dist getPos ds ts m k).maxPizzaDistance = m.maxPizzaDistance ∧
      (tickSeq dist getPos ds ts m k).goalPosition = m.goalPosition ∧
      (tickSeq dist getPos ds ts m k).goalRadius = m.goalRadius ∧
      (tickSeq dist getPos ds ts m k).mjData.isSome = true := by
    intro k
    induction k with
    | zero => exact fun _ => ⟨hgs, hfc, hp, ht, rfl, rfl, rfl, rfl, hd⟩
    | succ n ih =>
        intro hk
        obtain ⟨i1, i2, i3, i4, i5, i6, i7, i8, i9⟩ := ih (by omega)
        obtain ⟨dprev, hdprev⟩ := Option.isSome_iff_exists.mp i9
        have hd' : ({ tickSeq dist getPos ds ts m n with
            mjData := (tickSeq dist getPos ds ts m n).mjData.map fun _ => ds n } :
            PizzaDeliveryEnvManager).mjData = some (ds n) := by
          simp [hdprev]
        have hstep := beforeSimulationStep_ready_stays dist getPos (ts n) hd' i3 i4 i1
          (by simp only [i2, i5]; omega)
        have hpres := beforeSimulationStep_preserved dist getPos
          { tickSeq dist getPos ds ts m n with
              mjData := (tickSeq dist getPos ds ts m n).mjData.map fun _ => ds n } (ts n)
        refine ⟨hstep.1, hstep.2.trans (by simp [i2]), hpres.1.trans i3, hpres.2.1.trans i4,
          hpres.2.2.1.trans i5, hpres.2.2.2.1.trans i6, hpres.2.2.2.2.1.trans i7,
          hpres.2.2.2.2.2.1.trans i8, ?_⟩
        show ((beforeSimulationStep dist getPos
          { tickSeq dist getPos ds ts m n with
              mjData := (tickSeq dist getPos ds ts m n).mjData.map fun _ => ds n } (ts n)).mjData).isSome = true
        rw [hpres.2.2.2.2.2.2.trans hd']
        rfl
  refine ⟨fun k hk => (inv k hk).1, ?_⟩
  obtain ⟨i1, i2, i3, i4, i5, i6, i7, i8, i9⟩ := inv (m.startDelay - 1) (by omega)
  obtain ⟨dprev, hdprev⟩ := Option.isSome_iff_exists.mp i9
  have hd' : ({ tickSeq dist getPos ds ts m (m.startDelay - 1) with
      mjData := (tickSeq dist getPos ds ts m (m.startDelay - 1)).mjData.map
        fun _ => ds (m.startDelay - 1) } : PizzaDeliveryEnvManager).mjData =
      some (ds (m.startDelay - 1)) := by
    simp [hdprev]
  have hfin := beforeSimulationStep_ready_transitions dist getPos
    (ts (m.startDelay - 1)) hd' i3 i4 i1 (by simp [i2, i5]; omega)
    (by simpa [i6] using hnf) (by simpa [i7, i8] using hns)
  have hsplit : m.startDelay = (m.startDelay - 1) + 1 := by omega
  rw [hsplit]
  exact hfin

/-- A `ready` manager with a short warm-up (`startDelay = 2`); the
world data keeps every guard quiet. -/
def mW5 : PizzaDeliveryEnvManager :=
  { mkPizzaDeliveryEnvManager {} with
      mjData := some dataMid
      pizzaBodyId := some 1
      trunkBodyId := some 2
      startDelay := 2 }

/-- Witness for C5 at a concrete manager: after exactly
`startDelay = 2` ticks the state is `playing`. -/
theorem warmup_transitions_to_playing_witness :
    (tickSeq distZAxis getPosId (fun _ => dataMid) (fun _ => 1) mW5 mW5.startDelay).gameState =
      .playing :=
  (warmup_transitions_to_playing distZAxis getPosId (fun _ => dataMid) (fun _ => 1) mW5 1 2
    rfl rfl rfl rfl rfl (by decide)
    (by norm_num [abs_lt, le_abs, failCond, distZAxis, getPosId, dataMid, readZ, mW5,
      mkPizzaDeliveryEnvManager])
    (by norm_num [abs_lt, le_abs, succCond, distZAxis, getPosId, dataMid, readZ, mW5,
      mkPizzaDeliveryEnvManager])).2

/-! ### Claim C6 -/

/-- If no body in range carries the searched name, the resolution loop
returns its initial `none`. -/
lemma resolveBody_eq_none (bodies : ℕ → Option BodyE) (nbody : ℕ) (nm : String)
    (h : ∀ b, b < nbody → (bodies b).map BodyE.name ≠ some nm) :
    resolveBody bodies nbody nm = none := by
  unfold resolveBody
  have hgen : ∀ (l : List ℕ) (acc : Option ℕ),
      (∀ b ∈ l, (bodies b).map BodyE.name ≠ some nm) →
      l.foldl
        (fun acc b =>
          match bodies b with
          | none => acc
          | some body => if body.name = nm then some b else acc)
        acc = acc := by
    intro l
    induction l with
    | nil => intro acc _; rfl
    | cons x xs ih =>
        intro acc hall
        have hx := hall x (by simp)
        rw [List.foldl_cons]
        rcases hb : bodies x with _ | body
        · exact ih acc fun b hbm => hall b (by simp [hbm])
        · rw [hb] at hx
          have hne : body.name ≠ nm := by simpa using hx
          have hred : (match some body with
              | none => acc
              | some body => if body.name = nm then some x else acc) = acc := by
            simp [hne]
          rw [hred]
          exact ih acc fun b hbm => hall b (by simp [hbm])
  exact hgen _ none fun b hb => h b (List.mem_range.mp hb)

/-- C6: if the loaded model exposes no body named `pizza_box` (or none
named `trunk`), `onSceneLoaded` completes without throwing, the
corresponding body id stays unresolved (`none`), the episode restarts
in `ready`, and every subsequent `beforeSimulationStep` call — however
many — returns the manager unchanged: guard evaluation stays disabled
until another scene load re-resolves the ids. -/
theorem missing_body_disables_guards (dist : Vec3 → Vec3 → ℚ)
    (getPos : (ℕ → ℚ) → ℕ → Vec3) (m : PizzaDeliveryEnvManager)
    (model : MjModelE) (d : MjDataE) (bodies : ℕ → Option BodyE)
    (h : (∀ b, b < model.nbody → (bodies b).map BodyE.name ≠ some "pizza_box") ∨
         (∀ b, b < model.nbody → (bodies b).map BodyE.name ≠ some "trunk")) :
    ((onSceneLoaded m model d bodies).pizzaBodyId = none ∨
     (onSceneLoaded m model d bodies).trunkBodyId = none) ∧
    (onSceneLoaded m model d bodies).gameState = .ready ∧
    ∀ (m2 : PizzaDeliveryEnvManager) (t : ℚ) (n : ℕ),
      (m2.pizzaBodyId = none ∨ m2.trunkBodyId = none) →
      (fun s => beforeSimulationStep dist getPos s t)^[n] m2 = m2 := by
  refine ⟨?_, rfl, ?_⟩
  · rcases h with h | h
    · exact Or.inl (resolveBody_eq_none bodies model.nbody "pizza_box" h)
    · exact Or.inr (resolveBody_eq_none bodies model.nbody "trunk" h)
  · intro m2 t n h2
    induction n with
    | zero => rfl
    | succ k ih =>
        rw [Function.iterate_succ_apply', ih]
        exact beforeSimulationStep_unresolved dist getPos t (Or.inr h2)

/-- A body table containing `trunk` and `floor` but no `pizza_box`. -/
def bodiesW6 : ℕ → Option BodyE :=
  fun b => if b = 0 then some ⟨"trunk"⟩ else if b = 1 then some ⟨"floor"⟩ else none

/-- Witness for C6: loading a 2-body scene without a `pizza_box` body
leaves the pizza id unresolved and the state `ready`. -/
theorem missing_body_disables_guards_witness :
    ((onSceneLoaded (mkPizzaDeliveryEnvManager {}) ⟨2⟩ dataLow bodiesW6).pizzaBodyId = none ∨
     (onSceneLoaded (mkPizzaDeliveryEnvManager {}) ⟨2⟩ dataLow bodiesW6).trunkBodyId = none) ∧
    (onSceneLoaded (mkPizzaDeliveryEnvManager {}) ⟨2⟩ dataLow bodiesW6).gameState = .ready := by
  have h := missing_body_disables_guards distZAxis getPosId (mkPizzaDeliveryEnvManager {})
    ⟨2⟩ dataLow bodiesW6 (Or.inl (by decide))
  exact ⟨h.1, h.2.1⟩

/-! ### Claim C9 — `useUrlSync.ts` -/

/-- One entry of the `routeItems` computed list. -/
structure RouteItem where
  name : String
  path : String
  title : String
deriving DecidableEq

/-- The four projects offered by the dropdown (`routeItems`). -/
def routeItems : List RouteItem :=
  [⟨"default", "#/", "Muwanx Demo"⟩,
   ⟨"menagerie", "#/menagerie", "MuJoCo Menagerie"⟩,
   ⟨"playground", "#/playground", "MuJoCo Playground"⟩,
   ⟨"myosuite", "#/myosuite", "MyoSuite"⟩]

/-- JS `String.prototype.replace('#', '')`: removes the first `'#'`
only. -/
def removeFirstHashAux : List Char → List Char
  | [] => []
  | c :: cs => if c = '#' then cs else c :: removeFirstHashAux cs

/-- `r.path.replace('#', '')` from `goToRoute`. -/
def jsReplaceHashOnce (s : String) : String :=
  ⟨removeFirstHashAux s.data⟩

/-- `goToRoute` from `useUrlSync.ts`: `none` models "no navigation";
`some url` models assigning `window.location.href = url`.  The JS
`allowedPaths.includes`, `newHash.includes(':')` and
`newHash.startsWith('//')` tests are expressed on the character
lists. -/
def goToRoute (origin pathname rpath : String) : Option String :=
  if rpath ≠ "" then
    if rpath ∈ routeItems.map (fun i => i.path) then
      let newHash := jsReplaceHashOnce rpath
      if (':' ∈ newHash.data) ∨ newHash.data.take 2 = ['/', '/'] then none
      else some (origin ++ pathname ++ "#" ++ newHash)
    else none
  else none

lemma string_append_assoc (a b c : String) : a ++ b ++ c = a ++ (b ++ c) := by
  rcases a with ⟨la⟩
  rcases b with ⟨lb⟩
  rcases c with ⟨lc⟩
  exact congrArg String.mk (List.append_assoc la lb lc)

/-- C9: every call to `goToRoute` either performs no navigation, or
navigates to `origin ++ pathname ++ h` where the hash `h` is exactly
one of the four allow-listed project paths; in particular any path
outside the allow-list (hence any path whose hash contains `':'` or
starts with `'//'`) is rejected without navigating. -/
theorem goToRoute_allowlist_safe (origin pathname rpath : String) :
    goToRoute origin pathname rpath = none ∨
    ∃ item ∈ routeItems,
      goToRoute origin pathname rpath = some (origin ++ pathname ++ item.path) := by
  by_cases h0 : rpath = ""
  · subst h0
    exact Or.inl rfl
  by_cases hmem : rpath ∈ routeItems.map fun i => i.path
  · right
    simp only [routeItems, List.map_cons, List.map_nil, List.mem_cons,
      List.not_mem_nil, or_false] at hmem
    rcases hmem with h | h | h | h <;> subst h
    · refine ⟨⟨"default", "#/", "Muwanx Demo"⟩, by simp [routeItems], ?_⟩
      rw [show goToRoute origin pathname "#/" =
        some (origin ++ pathname ++ "#" ++ "/") from rfl, string_append_assoc,
        show ("#" : String) ++ "/" = "#/" from rfl]
    · refine ⟨⟨"menagerie", "#/menagerie", "MuJoCo Menagerie"⟩, by simp [routeItems], ?_⟩
      rw [show goToRoute origin pathname "#/menagerie" =
        some (origin ++ pathname ++ "#" ++ "/menagerie") from rfl, string_append_assoc,
        show ("#" : String) ++ "/menagerie" = "#/menagerie" from rfl]
    · refine ⟨⟨"playground", "#/playground", "MuJoCo Playground"⟩, by simp [routeItems], ?_⟩
      rw [show goToRoute origin pathname "#/playground" =
        some (origin ++ pathname ++ "#" ++ "/playground") from rfl, string_append_assoc,
        show ("#" : String) ++ "/playground" = "#/playground" from rfl]
    · refine ⟨⟨"myosuite", "#/myosuite", "MyoSuite"⟩, by simp [routeItems], ?_⟩
      rw [show goToRoute origin pathname "#/myosuite" =
        some (origin ++ pathname ++ "#" ++ "/myosuite") from rfl, string_append_assoc,
        show ("#" : String) ++ "/myosuite" = "#/myosuite" from rfl]
  · left
    simp only [goToRoute]
    rw [if_pos h0, if_neg hmem]

/-! ### Claim C10 — `terrainGeneratorSimple.ts` -/

/-- One `<geom type="box" .../>` element emitted by
`generateBoxTerrain`: position `(px, py, pz)`, half-extents
`(sx, sy, sz)` and colour string.  (The `toFixed(3)` formatting of the
emitted XML attributes is presentational and not modelled.) -/
structure BoxGeom where
  px : ℚ
  py : ℚ
  pz : ℚ
  sx : ℚ
  sy : ℚ
  sz : ℚ
  rgba : String
deriving DecidableEq

/-- `getColorForHeight`. -/
def getColorForHeight (height : ℚ) : String :=
  if height < 0.05 then "0.35 0.35 0.4 1"
  else if height < 0.1 then "0.4 0.4 0.45 1"
  else "0.45 0.45 0.5 1"

/-- The options record of `generateBoxTerrain`; `none` models an
omitted option (source defaults apply). -/
structure BoxTerrainOptions where
  sizeX : Option ℚ := none
  sizeY : Option ℚ := none
  resolution : Option ℚ := none
  scale : Option ℚ := none
  octaves : Option ℕ := none
  amplitude : Option ℚ := none
  centerX : Option ℚ := none
  centerY : Option ℚ := none

/-- The octave loop: `height += noise2D(x·scale·2^o, y·scale·2^o) ·
(amplitude · 0.5^o)` for `o < octaves`. -/
def octaveHeight (noise2D : ℚ → ℚ → ℚ) (scale amplitude : ℚ) (octaves : ℕ)
    (x y : ℚ) : ℚ :=
  (List.range octaves).foldl
    (fun h o => h + noise2D (x * scale * 2 ^ o) (y * scale * 2 ^ o) * (amplitude * (1/2) ^ o))
    0

/-- The grid of loop variables `for (v = start; v < stop; v += step)`.
The iteration count is `⌈(stop − start)/step⌉` when `step > 0`; a
non-positive `step` would make the JS loop either empty or
non-terminating, modelled as the empty grid. -/
def gridAux (step : ℚ) : ℕ → ℚ → List ℚ
  | 0, _ => []
  | n + 1, cur => cur :: gridAux step n (cur + step)

def gridPoints (start stop step : ℚ) : List ℚ :=
  gridAux step (if 0 < step then Nat.ceil ((stop - start) / step) else 0) start

/-- `generateBoxTerrain(options)`, emitting the geoms in loop order.
The `simplex-noise` sampler (`createNoise2D()`, seeded randomly in the
source) is an explicit parameter. -/
def generateBoxTerrain (noise2D : ℚ → ℚ → ℚ) (o : BoxTerrainOptions) : List BoxGeom :=
  let sizeX := o.sizeX.getD 15
  let sizeY := o.sizeY.getD 15
  let resolution := o.resolution.getD 0.4
  let scale := o.scale.getD 0.15
  let octaves := o.octaves.getD 3
  let amplitude := o.amplitude.getD 0.15
  let centerX := o.centerX.getD 0
  let centerY := o.centerY.getD 0
  let startX := centerX - sizeX / 2
  let startY := centerY - sizeY / 2
  let endX := centerX + sizeX / 2
  let endY := centerY + sizeY / 2
  (gridPoints startX endX resolution).flatMap fun x =>
    (gridPoints startY endY resolution).map fun y =>
      let height := |octaveHeight noise2D scale amplitude octaves x y| + 0.02
      { px := x, py := y, pz := height / 2
        sx := resolution / 2, sy := resolution / 2, sz := height / 2
        rgba := getColorForHeight height }

/-- C10: every box geom emitted by `generateBoxTerrain`, for every
option combination and every noise function, has height
`|noise| + 0.02 ≥ 0.02`, hence a z half-extent of at least `0.01` —
strictly positive. -/
theorem box_terrain_min_height (noise2D : ℚ → ℚ → ℚ) (o : BoxTerrainOptions)
    (g : BoxGeom) (hg : g ∈ generateBoxTerrain noise2D o) :
    (1/50 : ℚ) ≤ 2 * g.sz ∧ (1/100 : ℚ) ≤ g.sz ∧ 0 < g.sz := by
  simp only [generateBoxTerrain, List.mem_flatMap, List.mem_map] at hg
  obtain ⟨x, _, y, _, hgy⟩ := hg
  have habs : (0 : ℚ) ≤ |octaveHeight noise2D (o.scale.getD 0.15) (o.amplitude.getD 0.15)
      (o.octaves.getD 3) x y| := abs_nonneg _
  subst hgy
  refine ⟨by norm_num; linarith, by norm_num; linarith, by norm_num; linarith⟩

/-- A one-box option set: 1×1 area at resolution 1, one octave. -/
def optsW10 : BoxTerrainOptions :=
  { sizeX := some 1, sizeY := some 1, resolution := some 1, octaves := some 1 }

/-- The single geom produced by `optsW10` under the zero noise
function. -/
def geomW10 : BoxGeom :=
  { px := -1/2, py := -1/2, pz := 1/100, sx := 1/2, sy := 1/2, sz := 1/100
    rgba := "0.35 0.35 0.4 1" }

/-- Witness for C10 at a concrete terrain. -/
theorem box_terrain_min_height_witness :
    (1/50 : ℚ) ≤ 2 * geomW10.sz ∧ (1/100 : ℚ) ≤ geomW10.sz ∧ 0 < geomW10.sz :=
  box_terrain_min_height (fun _ _ => 0) optsW10 geomW10 (by
    norm_num [generateBoxTerrain, optsW10, geomW10, gridPoints, gridAux, octaveHeight,
      getColorForHeight])

/-! ### Claim C8 — control-loop decimation contract -/

/-- Modelled from the spec: the `ControlLoopOrchestrator` and its
physics/inference collaborators are not under `src/`.  Per §4.6, a
control tick is: build the observation, run one inference, convert it
into actuator commands, then advance the physics by `decimation`
sub-steps during which the command array is not rewritten.  `W` is the
opaque physics world; `stepW` is the engine's fixed sub-step, reading
(never writing) the command vector. -/
def runSubsteps {W : Type} (stepW : W → List ℚ → W) (ctrl : List ℚ) :
    ℕ → W → W × List (List ℚ)
  | 0, w => (w, [])
  | n + 1, w =>
      let r := runSubsteps stepW ctrl n (stepW w ctrl)
      (r.1, ctrl :: r.2)

/-- Modelled from the spec: the observable outcome of one control tick —
final world, final command vector, the outputs of the inference calls
made during the tick, and the command vector each physics sub-step
read. -/
structure ControlTickResult (W : Type) where
  world : W
  ctrl : List ℚ
  inferOutputs : List (List ℚ)
  substepCmds : List (List ℚ)

/-- Modelled from the spec: one control tick of the orchestrator
(§4.6, steps 2–6): `buildObs` is `ObservationManager.build`, `infer`
the `PolicyRunner`, `applyAct` the `ActionManager` writing the actuator
command array, `stepW` one physics sub-step, `decimation` the
configured sub-step count. -/
def controlTick {W : Type} (buildObs : W → List ℚ) (infer : List ℚ → List ℚ)
    (applyAct : List ℚ → List ℚ → List ℚ) (stepW : W → List ℚ → W)
    (decimation : ℕ) (w : W) (ctrl : List ℚ) : ControlTickResult W :=
  let obs := buildObs w
  let act := infer obs
  let ctrl2 := applyAct act ctrl
  let r := runSubsteps stepW ctrl2 decimation w
  ⟨r.1, ctrl2, [act], r.2⟩

lemma runSubsteps_spec {W : Type} (stepW : W → List ℚ → W) (ctrl : List ℚ)
    (n : ℕ) (w : W) :
    (runSubsteps stepW ctrl n w).2.length = n ∧
    ∀ c ∈ (runSubsteps stepW ctrl n w).2, c = ctrl := by
  induction n generalizing w with
  | zero => exact ⟨rfl, by simp [runSubsteps]⟩
  | succ k ih =>
      obtain ⟨ihl, ihm⟩ := ih (stepW w ctrl)
      refine ⟨?_, ?_⟩
      · simp [runSubsteps, ihl]
      · intro c hc
        simp only [runSubsteps, List.mem_cons] at hc
        rcases hc with rfl | hc
        · rfl
        · exact ihm c hc

/-- C8 (spec-modelled): one control tick with decimation `D` executes
exactly `D` physics sub-steps and exactly one policy inference, and the
actuator command vector read by every sub-step equals the single
vector written by the ActionManager at the start of the tick — it stays
constant across all `D` sub-steps. -/
theorem decimation_contract {W : Type} (buildObs : W → List ℚ)
    (infer : List ℚ → List ℚ) (applyAct : List ℚ → List ℚ → List ℚ)
    (stepW : W → List ℚ → W) (decimation : ℕ) (w : W) (ctrl : List ℚ) :
    (controlTick buildObs infer applyAct stepW decimation w ctrl).substepCmds.length =
      decimation ∧
    (controlTick buildObs infer applyAct stepW decimation w ctrl).inferOutputs.length = 1 ∧
    ∀ c ∈ (controlTick buildObs infer applyAct stepW decimation w ctrl).substepCmds,
      c = applyAct (infer (buildObs w)) ctrl := by
  obtain ⟨hl, hm⟩ := runSubsteps_spec stepW (applyAct (infer (buildObs w)) ctrl) decimation w
  exact ⟨hl, rfl, hm⟩

end Muwanx
